import Mathlib

/-!
# Verification of `PageBlock` (waterboxhost memory_block/pageblock.rs)

Shallow embedding of `src/waterbox/waterboxhost/src/memory_block/pageblock.rs`:
a wrapper around the allocation of a single `PAGESIZE`-byte page of RAM,
acquired from the OS via `mmap` on unix targets and released via `munmap`.

Modelling choices:
* machine pointers are `Nat` (0 is the null pointer / `null_mut()`);
* the bytes of the exclusively-owned mapped region are carried inside the
  `PageBlock` value as a function `Fin PAGESIZE → UInt8` (the Rust struct
  stores only the `NonNull<u8>` pointer; since ownership of the region is
  exclusive, its contents travel with the handle in the embedding);
* `panic!` paths are embedded as `Except String`, the error carrying the
  panic diagnostic string;
* the OS is an oracle: the outcome of the one `mmap` call is a parameter
  (`MmapOutcome`), and the `munmap` return code is a parameter (`Int`).
-/

namespace Pageblock

/-- Modelled from the spec: `PAGESIZE` is defined in the crate root (not in
the extracted sources) as the fixed, process-wide host page granularity,
"commonly, but not necessarily, 4096 bytes". -/
def PAGESIZE : Nat := 4096

/-! ## libc constants (x86-64 Linux values of the `libc` crate) -/

def PROT_READ : Nat := 1
def PROT_WRITE : Nat := 2
def MAP_SHARED : Nat := 1
def MAP_PRIVATE : Nat := 2
def MAP_ANONYMOUS : Nat := 32

/-- The argument tuple of one `mmap` system call:
`mmap(addr, len, prot, flags, fd, offset)`. -/
structure MmapRequest where
  addr : Nat
  len : Nat
  prot : Nat
  flags : Nat
  fd : Int
  offset : Nat
deriving DecidableEq

/-- The argument pair of one `munmap` system call: `munmap(addr, len)`. -/
structure MunmapRequest where
  addr : Nat
  len : Nat
deriving DecidableEq

/-- The OS's response to the single `mmap` call: either `MAP_FAILED`, or a
mapping at address `addr` whose bytes are `contents`. -/
inductive MmapOutcome where
  | mapFailed
  | mapped (addr : Nat) (contents : Fin PAGESIZE → UInt8)

/-- Modelled from the spec: the POSIX guarantee for a successful anonymous,
private, read/write mapping of one page — the chosen address is non-null,
aligned to the page granularity, and the region is zero-filled ("Region is
zero-filled at the moment of acquisition (OS-guaranteed, not explicitly
zeroed by this component)"). -/
def MmapOutcome.wellBehaved : MmapOutcome → Prop
  | .mapFailed => True
  | .mapped addr contents =>
      addr ≠ 0 ∧ addr % PAGESIZE = 0 ∧ ∀ i, contents i = 0

/-- The exact request built by the unix `alloc`:
`mmap(null_mut(), PAGESIZE, PROT_READ | PROT_WRITE,
      MAP_PRIVATE | MAP_ANONYMOUS, -1, 0)`. -/
def allocRequest : MmapRequest :=
  { addr := 0
    len := PAGESIZE
    prot := PROT_READ ||| PROT_WRITE
    flags := MAP_PRIVATE ||| MAP_ANONYMOUS
    fd := -1
    offset := 0 }

/-- The unix `alloc`: performs the `mmap` call and translates `MAP_FAILED`
to the null pointer, otherwise returns the mapped address. -/
def alloc : MmapOutcome → Nat
  | .mapFailed => 0
  | .mapped a _ => a

/-- The contents of the region produced by a successful `mmap` (heap
abstraction; the `mapFailed` branch is never consulted by `new`, which
panics on a null result before touching memory). -/
def mappedContents : MmapOutcome → (Fin PAGESIZE → UInt8)
  | .mapFailed => fun _ => 0
  | .mapped _ c => c

/-- The `PageBlock` struct: wraps the allocation of a single `PAGESIZE` bytes of RAM.
`ptr` embeds the `NonNull<u8>` field (as the raw address it wraps); `mem`
carries the bytes of the exclusively-owned region. -/
structure PageBlock where
  ptr : Nat
  mem : Fin PAGESIZE → UInt8

/-- Acquisition `PageBlock::new`: calls `alloc`; if the result is null it panics with
`"PageBlock could not allocate memory!"`, otherwise it wraps the pointer. -/
def PageBlock.new (os : MmapOutcome) : Except String PageBlock :=
  if alloc os = 0 then
    .error "PageBlock could not allocate memory!"
  else
    .ok { ptr := alloc os, mem := mappedContents os }

/-- Immutable view `PageBlock::slice`:
`std::slice::from_raw_parts(self.ptr.as_ptr(), PAGESIZE)`, embedded as the
list of the `PAGESIZE` bytes starting at the stored address. -/
def PageBlock.slice (b : PageBlock) : List UInt8 :=
  List.ofFn b.mem

/-- Mutable view `PageBlock::slice_mut`:
`std::slice::from_raw_parts_mut(self.ptr.as_ptr(), PAGESIZE)`; its contents
are the same `PAGESIZE` bytes as the immutable view. -/
def PageBlock.sliceMut (b : PageBlock) : List UInt8 :=
  List.ofFn b.mem

/-- A store `self.slice_mut()[i] = v` through the mutable view, embedded as
explicit state passing: the byte at offset `i` becomes `v`. -/
def PageBlock.sliceMutSet (b : PageBlock) (i : Fin PAGESIZE) (v : UInt8) :
    PageBlock :=
  { b with mem := Function.update b.mem i v }

/-- Raw accessor `PageBlock::as_ptr`: exposes the bare start address. -/
def PageBlock.asPtr (b : PageBlock) : Nat :=
  b.ptr

/-- Raw accessor `PageBlock::as_mut_ptr`: exposes the bare start address (mutably). -/
def PageBlock.asMutPtr (b : PageBlock) : Nat :=
  b.ptr

/-- The unix `free`: `munmap(ptr, PAGESIZE)` returns `0` on success; `free`
returns `true` exactly when it did (`match res { 0 => true, _ => false }`).
The `munmap` return code is the oracle parameter `res`. -/
def free (res : Int) : Bool :=
  if res = 0 then true else false

/-- The `munmap` request issued by the unix `free` for pointer `p`:
`munmap(ptr, PAGESIZE)`. -/
def freeRequest (p : Nat) : MunmapRequest :=
  { addr := p, len := PAGESIZE }

/-- Destructor `Drop for PageBlock`: calls `free(self.ptr.as_ptr())` and panics with
`"PageBlock could not free memory!"` if `free` returns `false`. Returns the
`munmap` request it issued together with the outcome. -/
def PageBlock.drop (b : PageBlock) (res : Int) :
    MunmapRequest × Except String Unit :=
  (freeRequest b.ptr,
   if free res then .ok () else .error "PageBlock could not free memory!")

/-! ## Effect traces

Every operation the acquire and release paths perform, in order. The
vocabulary also names the operations the spec forbids on these paths
(locking, general-purpose heap allocation, buffered I/O) so that their
absence is a statement, not a tautology. A `panic!` is embedded as an
`abortDiagnostic` effect, following the spec: "Both kinds halt the process
immediately with a diagnostic". -/

inductive Effect where
  | syscallMmap (req : MmapRequest)
  | syscallMunmap (req : MunmapRequest)
  | abortDiagnostic (msg : String)
  | lock
  | heapAlloc
  | bufferedOutput
deriving DecidableEq

/-- The effects performed by `PageBlock::new`, in order: the one `mmap`
call inside `alloc`, then, on the null-pointer path only, the panic. -/
def newTrace (os : MmapOutcome) : List Effect :=
  [.syscallMmap allocRequest] ++
    (if alloc os = 0 then
      [.abortDiagnostic "PageBlock could not allocate memory!"]
    else [])

/-- The effects performed by `Drop for PageBlock`, in order: the one
`munmap` call inside `free`, then, on the failure path only, the panic. -/
def dropTrace (b : PageBlock) (res : Int) : List Effect :=
  [.syscallMunmap (freeRequest b.ptr)] ++
    (if free res then [] else
      [.abortDiagnostic "PageBlock could not free memory!"])

/-- An effect a signal/exception handler may safely perform: a direct
system call or an immediate process abort — never a lock, a general-purpose
heap allocation, or buffered I/O. -/
def Effect.handlerSafe : Effect → Bool
  | .syscallMmap _ => true
  | .syscallMunmap _ => true
  | .abortDiagnostic _ => true
  | .lock => false
  | .heapAlloc => false
  | .bufferedOutput => false

/-! ## Lifecycle

Modelled from the spec: the owning handle's lifetime is governed by Rust's
ownership discipline (not visible in the extracted source); the spec gives
the induced state machine: "*unallocated → allocated → released*
(terminal), with no valid transition back from released", with `Drop`
(which performs the release) invoked exactly once, at the end of the
lifetime. -/

inductive LifeState where
  | unallocated
  | allocated
  | released
deriving DecidableEq

inductive LifeEvent where
  | acquire
  | endOfLifetime
deriving DecidableEq

/-- One lifecycle transition; `none` is an impossible (rejected) step.
`endOfLifetime` is the step at which `Drop` runs and the page is freed. -/
def lifeStep : LifeState → LifeEvent → Option LifeState
  | .unallocated, .acquire => some .allocated
  | .allocated, .endOfLifetime => some .released
  | _, _ => none

/-- Run a sequence of lifecycle events from a state; `none` if any step is
invalid. -/
def runLife (s : LifeState) : List LifeEvent → Option LifeState
  | [] => some s
  | e :: es =>
      match lifeStep s e with
      | none => none
      | some s' => runLife s' es

/-- Number of times `Drop` (the release) runs in an event sequence. -/
def releaseCount (es : List LifeEvent) : Nat :=
  es.count .endOfLifetime

/-- Number of `mmap` system calls in an effect trace. -/
def countMmap (l : List Effect) : Nat :=
  l.countP fun e =>
    match e with
    | .syscallMmap _ => true
    | _ => false

/-- Number of `munmap` system calls in an effect trace. -/
def countMunmap (l : List Effect) : Nat :=
  l.countP fun e =>
    match e with
    | .syscallMunmap _ => true
    | _ => false

/-- Reading the byte at offset `i` through the immutable view (the
indexing `sl[i]` on the slice returned by `slice()`). -/
def PageBlock.sliceGet (b : PageBlock) (i : Fin PAGESIZE) : UInt8 :=
  b.slice.get ⟨i.val, Nat.lt_of_lt_of_eq i.isLt (List.length_ofFn b.mem).symm⟩

/-! ## Helper lemmas -/

theorem length_slice (b : PageBlock) : b.slice.length = PAGESIZE :=
  List.length_ofFn b.mem

theorem length_sliceMut (b : PageBlock) : b.sliceMut.length = PAGESIZE :=
  List.length_ofFn b.mem

theorem sliceGet_eq_mem (b : PageBlock) (i : Fin PAGESIZE) :
    b.sliceGet i = b.mem i := by
  unfold PageBlock.sliceGet
  rw [List.get_eq_getElem]
  unfold PageBlock.slice
  rw [List.getElem_ofFn]

theorem new_ok_inv (os : MmapOutcome) (pb : PageBlock)
    (h : PageBlock.new os = .ok pb) :
    alloc os ≠ 0 ∧ pb.ptr = alloc os ∧ pb.mem = mappedContents os := by
  unfold PageBlock.new at h
  split at h
  · simp at h
  · rename_i hne
    refine ⟨hne, ?_, ?_⟩ <;> cases h <;> rfl

/-! ## Claim theorems -/

/-- C1: for every `PageBlock` returned by a successful acquisition
(`PageBlock::new`), every byte of the region exposed by the initial
immutable view `slice()` equals zero (the view is `PAGESIZE` zero
bytes). -/
theorem new_slice_all_zero (os : MmapOutcome) (pb : PageBlock)
    (hw : os.wellBehaved) (h : PageBlock.new os = .ok pb) :
    pb.slice = List.replicate PAGESIZE 0 := by
  obtain ⟨hne, hptr, hmem⟩ := new_ok_inv os pb h
  cases os with
  | mapFailed => exact absurd rfl hne
  | mapped a c =>
      obtain ⟨-, -, hz⟩ := hw
      have hc : mappedContents (.mapped a c) = fun _ => (0 : UInt8) :=
        funext fun i => hz i
      unfold PageBlock.slice
      rw [hmem, hc, List.ofFn_const]

/-- C1 witness: the concrete well-behaved outcome mapping address 4096 to
an all-zero page, on which `new` succeeds and the initial view is all
zeros. -/
theorem new_slice_all_zero_witness :
    (MmapOutcome.mapped 4096 fun _ => 0).wellBehaved ∧
      PageBlock.slice ⟨4096, fun _ => 0⟩ = List.replicate PAGESIZE 0 :=
  ⟨⟨by decide, by decide, fun _ => rfl⟩,
   new_slice_all_zero (.mapped 4096 fun _ => 0) ⟨4096, fun _ => 0⟩
     ⟨by decide, by decide, fun _ => rfl⟩ rfl⟩

/-- C2: for every live `PageBlock` and offset `i < PAGESIZE`, a store of
byte `v` at offset `i` through the mutable view `slice_mut()` followed by a
read of offset `i` through the immutable view `slice()` yields exactly
`v`. -/
theorem write_read_roundtrip (pb : PageBlock) (i : Fin PAGESIZE)
    (v : UInt8) :
    (pb.sliceMutSet i v).sliceGet i = v := by
  rw [sliceGet_eq_mem]
  exact Function.update_same i v pb.mem

/-- C3: if the OS declines the page acquisition (`alloc` reports failure by
returning null), `PageBlock::new` panics with its diagnostic and never
returns a handle; it returns a `PageBlock` only when `alloc` succeeded. -/
theorem new_fatal_on_alloc_failure (os : MmapOutcome) :
    (alloc os = 0 →
      PageBlock.new os = .error "PageBlock could not allocate memory!") ∧
    ∀ pb : PageBlock, PageBlock.new os = .ok pb → alloc os ≠ 0 := by
  constructor
  · intro h0
    unfold PageBlock.new
    rw [if_pos h0]
  · intro pb h
    exact (new_ok_inv os pb h).1

/-- C3 witness: on the concrete failed outcome `mapFailed`, `new` is the
allocation panic. -/
theorem new_fatal_on_alloc_failure_witness :
    PageBlock.new .mapFailed = .error "PageBlock could not allocate memory!" :=
  (new_fatal_on_alloc_failure .mapFailed).1 rfl

/-- C5: every `PageBlock` returned by a successful acquisition has a
non-null stored address, and the address exposed by `as_ptr` /
`as_mut_ptr` is likewise non-null. -/
theorem new_ptr_nonnull (os : MmapOutcome) (pb : PageBlock)
    (h : PageBlock.new os = .ok pb) :
    pb.ptr ≠ 0 ∧ pb.asPtr ≠ 0 ∧ pb.asMutPtr ≠ 0 := by
  obtain ⟨hne, hptr, -⟩ := new_ok_inv os pb h
  have hp : pb.ptr ≠ 0 := by rw [hptr]; exact hne
  exact ⟨hp, hp, hp⟩

/-- C5 witness: the block produced by `new` on the concrete outcome mapping
address 4096 has non-null stored and exposed addresses. -/
theorem new_ptr_nonnull_witness :
    PageBlock.ptr ⟨4096, fun _ => 0⟩ ≠ 0 ∧
      PageBlock.asPtr ⟨4096, fun _ => 0⟩ ≠ 0 ∧
      PageBlock.asMutPtr ⟨4096, fun _ => 0⟩ ≠ 0 :=
  new_ptr_nonnull (.mapped 4096 fun _ => 0) ⟨4096, fun _ => 0⟩ rfl

theorem runLife_released (es : List LifeEvent) (s : LifeState)
    (h : runLife .released es = some s) : es = [] ∧ s = .released := by
  cases es with
  | nil =>
      simp only [runLife, Option.some.injEq] at h
      exact ⟨rfl, h.symm⟩
  | cons e es1 => cases e <;> simp [runLife, lifeStep] at h

theorem runLife_unallocated_cases (es : List LifeEvent) (s : LifeState)
    (h : runLife .unallocated es = some s) :
    (es = [] ∧ s = .unallocated) ∨ (es = [.acquire] ∧ s = .allocated) ∨
      (es = [.acquire, .endOfLifetime] ∧ s = .released) := by
  cases es with
  | nil =>
      left
      simp only [runLife, Option.some.injEq] at h
      exact ⟨rfl, h.symm⟩
  | cons e es1 =>
      cases e with
      | acquire =>
          simp only [runLife, lifeStep] at h
          cases es1 with
          | nil =>
              right; left
              simp only [runLife, Option.some.injEq] at h
              exact ⟨rfl, h.symm⟩
          | cons e2 es2 =>
              cases e2 with
              | acquire => simp [runLife, lifeStep] at h
              | endOfLifetime =>
                  simp only [runLife, lifeStep] at h
                  obtain ⟨h1, h2⟩ := runLife_released es2 s h
                  right; right
                  rw [h1]
                  exact ⟨rfl, h2⟩
      | endOfLifetime => simp [runLife, lifeStep] at h

/-- C4: in every valid lifecycle the release (`Drop`, which frees the
page) runs at most once, and exactly once in a completed lifecycle ending
in `released`; and when the OS declines the release (`free` returns
`false`), `Drop` panics with its diagnostic instead of retrying or
ignoring the failure. -/
theorem release_once_and_fatal (es : List LifeEvent) (s : LifeState)
    (b : PageBlock) (res : Int) :
    (runLife .unallocated es = some s → releaseCount es ≤ 1) ∧
    (runLife .unallocated es = some .released → releaseCount es = 1) ∧
    (free res = false →
      (b.drop res).2 = .error "PageBlock could not free memory!") ∧
    (free res = true → (b.drop res).2 = .ok ()) := by
  refine ⟨?_, ?_, ?_, ?_⟩
  · intro h
    rcases runLife_unallocated_cases es s h with ⟨he, -⟩ | ⟨he, -⟩ | ⟨he, -⟩ <;>
      rw [he] <;> decide
  · intro h
    rcases runLife_unallocated_cases es .released h with
      ⟨-, hs⟩ | ⟨-, hs⟩ | ⟨he, -⟩
    · exact absurd hs (by decide)
    · exact absurd hs (by decide)
    · rw [he]; decide
  · intro hf
    unfold PageBlock.drop
    rw [hf]
    rfl
  · intro hf
    unfold PageBlock.drop
    rw [hf]
    rfl

/-- C4 witness: the completed lifecycle releases exactly once, and a
concrete declined `munmap` (return code `-1`) makes `Drop` panic. -/
theorem release_once_and_fatal_witness :
    releaseCount [LifeEvent.acquire, LifeEvent.endOfLifetime] = 1 ∧
      (PageBlock.drop ⟨4096, fun _ => 0⟩ (-1)).2 =
        .error "PageBlock could not free memory!" :=
  ⟨(release_once_and_fatal [.acquire, .endOfLifetime] .released
      ⟨4096, fun _ => 0⟩ (-1)).2.1 rfl,
   (release_once_and_fatal [.acquire, .endOfLifetime] .released
      ⟨4096, fun _ => 0⟩ (-1)).2.2.1 (by decide)⟩

/-- C6: for every `PageBlock` returned by a successful acquisition, both
views have length exactly `PAGESIZE`, and the stored start address is
aligned to the page granularity. -/
theorem live_block_extent (os : MmapOutcome) (pb : PageBlock)
    (hw : os.wellBehaved) (h : PageBlock.new os = .ok pb) :
    pb.slice.length = PAGESIZE ∧ pb.sliceMut.length = PAGESIZE ∧
      pb.ptr % PAGESIZE = 0 := by
  obtain ⟨hne, hptr, -⟩ := new_ok_inv os pb h
  refine ⟨length_slice pb, length_sliceMut pb, ?_⟩
  cases os with
  | mapFailed => exact absurd rfl hne
  | mapped a c =>
      obtain ⟨-, hal, -⟩ := hw
      rw [hptr]
      exact hal

/-- C6 witness: the block acquired from the concrete well-behaved outcome
at address 4096 has `PAGESIZE`-length views and an aligned address. -/
theorem live_block_extent_witness :
    (PageBlock.slice ⟨4096, fun _ => 0⟩).length = PAGESIZE ∧
      (PageBlock.sliceMut ⟨4096, fun _ => 0⟩).length = PAGESIZE ∧
      PageBlock.ptr ⟨4096, fun _ => 0⟩ % PAGESIZE = 0 :=
  live_block_extent (.mapped 4096 fun _ => 0) ⟨4096, fun _ => 0⟩
    ⟨by decide, by decide, fun _ => rfl⟩ rfl

/-- C7: on POSIX targets the acquisition issues exactly one `mmap` system
call, and its request is for `PAGESIZE` bytes, read/write protection, with
the anonymous and private flags set, the shared flag clear, no backing
file (`fd = -1`, offset 0), at an OS-chosen address (null hint). -/
theorem alloc_one_anonymous_private_rw_page (os : MmapOutcome) :
    countMmap (newTrace os) = 1 ∧
      Effect.syscallMmap allocRequest ∈ newTrace os ∧
      allocRequest.addr = 0 ∧
      allocRequest.len = PAGESIZE ∧
      allocRequest.prot = PROT_READ ||| PROT_WRITE ∧
      allocRequest.flags &&& MAP_ANONYMOUS = MAP_ANONYMOUS ∧
      allocRequest.flags &&& MAP_PRIVATE = MAP_PRIVATE ∧
      allocRequest.flags &&& MAP_SHARED = 0 ∧
      allocRequest.fd = -1 ∧
      allocRequest.offset = 0 := by
  refine ⟨?_, ?_, rfl, rfl, rfl, by decide, by decide, by decide, rfl, rfl⟩
  · unfold countMmap newTrace
    split <;> decide
  · unfold newTrace
    split <;> simp

/-- C8: the release hands the OS exactly the stored address of this
handle, unmapping precisely `PAGESIZE` bytes there, and issues exactly one
`munmap` call. -/
theorem drop_unmaps_exact_page (b : PageBlock) (res : Int) :
    (b.drop res).1 = { addr := b.ptr, len := PAGESIZE } ∧
      countMunmap (dropTrace b res) = 1 ∧
      Effect.syscallMunmap { addr := b.ptr, len := PAGESIZE } ∈
        dropTrace b res := by
  refine ⟨rfl, ?_, ?_⟩
  · unfold countMunmap dropTrace
    split <;> simp [List.countP_append, List.countP_cons]
  · unfold dropTrace
    split <;> simp [freeRequest]

/-- C9: every effect performed by the acquire path and by the release
path, on every branch including the failure branches, is a direct system
call or an immediate abort — never a lock acquisition, a general-purpose
heap allocation, or buffered I/O. -/
theorem acquire_release_handler_safe (os : MmapOutcome) (b : PageBlock)
    (res : Int) :
    (newTrace os).all Effect.handlerSafe = true ∧
      (dropTrace b res).all Effect.handlerSafe = true := by
  constructor
  · unfold newTrace
    split <;> simp [Effect.handlerSafe]
  · unfold dropTrace
    split <;> simp [Effect.handlerSafe]

/-- C10: a store at offset `i` through the mutable view leaves the byte at
every other offset `j ≠ i` unchanged, and leaves the stored address
unchanged. -/
theorem write_frame (pb : PageBlock) (i j : Fin PAGESIZE) (v : UInt8)
    (hij : i ≠ j) :
    (pb.sliceMutSet i v).sliceGet j = pb.sliceGet j ∧
      (pb.sliceMutSet i v).ptr = pb.ptr := by
  constructor
  · rw [sliceGet_eq_mem, sliceGet_eq_mem]
    show Function.update pb.mem i v j = pb.mem j
    exact Function.update_noteq (Ne.symm hij) v pb.mem
  · rfl

/-- C10 witness: on a concrete all-zero block at address 4096, writing 7
at offset 0 leaves offset 1 and the stored address unchanged. -/
theorem write_frame_witness :
    (PageBlock.sliceMutSet ⟨4096, fun _ => 0⟩ ⟨0, by decide⟩ 7).sliceGet
        ⟨1, by decide⟩ =
      PageBlock.sliceGet ⟨4096, fun _ => 0⟩ ⟨1, by decide⟩ ∧
      (PageBlock.sliceMutSet ⟨4096, fun _ => 0⟩ ⟨0, by decide⟩ 7).ptr =
        4096 :=
  write_frame ⟨4096, fun _ => 0⟩ ⟨0, by decide⟩ ⟨1, by decide⟩ 7 (by decide)

end Pageblock
